import Mathlib

/-!
Shallow embedding of the comments-hub backend core
(`src/controllers/commentController.ts` together with the Comment
mongoose schema).  Users and comments are keyed by natural numbers,
the comment collection is an association list, and each controller
action is a pure function from a store to a store plus a result.
-/

namespace CommentsHub

/-- The Comment document, following the mongoose schema: `content`
(trimmed, 1–2000 chars), `author`, `pageId`, `likes`/`dislikes`
(arrays of user ids), `parentComment` (nullable), `replies`
(back-link array of child ids), `isDeleted` (default false) and the
`createdAt` timestamp. -/
structure Comment where
  content : String
  author : Nat
  pageId : String
  likes : List Nat
  dislikes : List Nat
  parentComment : Option Nat
  replies : List Nat
  isDeleted : Bool
  createdAt : Nat
deriving DecidableEq, Repr

/-- The comment collection: an association list from comment id to document. -/
abbrev Store := List (Nat × Comment)

/-- The `errorType` values the controller hands to `sendFailureResponse`,
plus the schema-validation failure raised by mongoose on create/save. -/
inductive ErrorType where
  | NOT_FOUND
  | FORBIDDEN
  | VALIDATION
deriving DecidableEq, Repr

/-- Model of `Comment.findById`: first entry with the given id, if any. -/
def findById (store : Store) (cid : Nat) : Option Comment :=
  (store.find? (fun p => p.1 == cid)).map (·.2)

/-- Replace the document stored under `cid` (used to model persisting a
mutated mongoose document). -/
def updateById (store : Store) (cid : Nat) (c : Comment) : Store :=
  store.map (fun p => if p.1 == cid then (p.1, c) else p)

/-- Mongo `$addToSet`: append the element only when it is not already present. -/
def addToSet (l : List Nat) (x : Nat) : List Nat :=
  if l.contains x then l else l ++ [x]

/-- The `commentSchema.post('save')` middleware: when the saved document
has a parent, `findByIdAndUpdate` the parent with
`$addToSet: { replies: doc._id }` (a no-op when the parent id resolves
to nothing). -/
def postSaveHook (store : Store) (cid : Nat) (doc : Comment) : Store :=
  match doc.parentComment with
  | none => store
  | some p =>
    match findById store p with
    | none => store
    | some parentC =>
      updateById store p { parentC with replies := addToSet parentC.replies cid }

/-- Model of `comment.save()`: persist the document, then run the post-save hook. -/
def saveComment (store : Store) (cid : Nat) (c : Comment) : Store :=
  postSaveHook (updateById store cid c) cid c

/-- Whitespace trimming as mongoose's `trim: true` sanitizer performs it:
drop leading and trailing whitespace characters. -/
def strTrim (s : String) : String :=
  ⟨((s.data.dropWhile Char.isWhitespace).reverse.dropWhile Char.isWhitespace).reverse⟩

/-- Schema validation for `content`: trimmed, minlength 1, maxlength 2000. -/
def validContent (content : String) : Bool :=
  1 ≤ (strTrim content).length && (strTrim content).length ≤ 2000

instance instDecEqExcept {ε α : Type} [DecidableEq ε] [DecidableEq α] :
    DecidableEq (Except ε α) := fun a b =>
  match a, b with
  | .ok x, .ok y =>
    if h : x = y then .isTrue (h ▸ rfl) else .isFalse (fun hh => h (Except.ok.inj hh))
  | .error e, .error f =>
    if h : e = f then .isTrue (h ▸ rfl) else .isFalse (fun hh => h (Except.error.inj hh))
  | .ok _, .error _ => .isFalse (fun hh => Except.noConfusion hh)
  | .error _, .ok _ => .isFalse (fun hh => Except.noConfusion hh)

/-- The conditional array mutation inside `likeComment`: if the user already
likes the comment, remove the like (dislikes untouched); otherwise push the
like and filter the user out of the dislikes. -/
def likeToggle (c : Comment) (uid : Nat) : Comment :=
  if c.likes.contains uid then
    { c with likes := c.likes.filter (fun i => i != uid) }
  else
    { c with likes := c.likes ++ [uid],
             dislikes := c.dislikes.filter (fun i => i != uid) }

/-- The conditional array mutation inside `dislikeComment`, symmetric to
`likeToggle`. -/
def dislikeToggle (c : Comment) (uid : Nat) : Comment :=
  if c.dislikes.contains uid then
    { c with dislikes := c.dislikes.filter (fun i => i != uid) }
  else
    { c with dislikes := c.dislikes ++ [uid],
             likes := c.likes.filter (fun i => i != uid) }

/-- The `likeComment` controller: 404 when `findById` misses, otherwise toggle
the like, save, and report "Comment liked" or "Like removed".  Note the
controller never consults `isDeleted`. -/
def likeComment (store : Store) (cid uid : Nat) : Store × Except ErrorType String :=
  match findById store cid with
  | none => (store, .error .NOT_FOUND)
  | some comment =>
    let alreadyLiked := comment.likes.contains uid
    (saveComment store cid (likeToggle comment uid),
     .ok (if alreadyLiked then "Like removed" else "Comment liked"))

/-- The `dislikeComment` controller, symmetric to `likeComment`. -/
def dislikeComment (store : Store) (cid uid : Nat) : Store × Except ErrorType String :=
  match findById store cid with
  | none => (store, .error .NOT_FOUND)
  | some comment =>
    let alreadyDisliked := comment.dislikes.contains uid
    (saveComment store cid (dislikeToggle comment uid),
     .ok (if alreadyDisliked then "Dislike removed" else "Comment disliked"))

/-- The `updateComment` controller plus schema validation on save: 404 when the
comment id misses, 403 when the requester is not the author, otherwise
replace `content` (trimmed by the schema) and save. -/
def updateComment (store : Store) (cid requesterId : Nat) (content : String) :
    Store × Except ErrorType Unit :=
  match findById store cid with
  | none => (store, .error .NOT_FOUND)
  | some comment =>
    if comment.author != requesterId then (store, .error .FORBIDDEN)
    else if !validContent content then (store, .error .VALIDATION)
    else (saveComment store cid { comment with content := strTrim content }, .ok ())

/-- The `deleteComment` controller: same lookup and author checks as edit, then
soft delete by setting `isDeleted := true` and saving. -/
def deleteComment (store : Store) (cid requesterId : Nat) :
    Store × Except ErrorType Unit :=
  match findById store cid with
  | none => (store, .error .NOT_FOUND)
  | some comment =>
    if comment.author != requesterId then (store, .error .FORBIDDEN)
    else (saveComment store cid { comment with isDeleted := true }, .ok ())

/-- The document `Comment.create` builds: supplied `pageId`, trimmed
content, empty reaction arrays, not deleted. -/
def newComment (userId : Nat) (content pageId : String)
    (parentCommentId : Option Nat) (now : Nat) : Comment :=
  { content := strTrim content, author := userId, pageId := pageId,
    likes := [], dislikes := [], parentComment := parentCommentId,
    replies := [], isDeleted := false, createdAt := now }

/-- The `createComment` controller plus schema validation inside
`Comment.create`: when a parent id is supplied it must resolve (the
`isDeleted` flag is not consulted); the new document gets the supplied
`pageId`, empty reaction arrays, `isDeleted := false`, and the post-save
hook links it into the parent's `replies`. -/
def createComment (store : Store) (userId : Nat) (content pageId : String)
    (parentCommentId : Option Nat) (newId now : Nat) :
    Store × Except ErrorType Nat :=
  match parentCommentId with
  | some pid =>
    match findById store pid with
    | none => (store, .error .NOT_FOUND)
    | some _ =>
      if !(validContent content && pageId != "") then (store, .error .VALIDATION)
      else
        let c := newComment userId content pageId (some pid) now
        (postSaveHook (store ++ [(newId, c)]) newId c, .ok newId)
  | none =>
    if !(validContent content && pageId != "") then (store, .error .VALIDATION)
    else
      let c := newComment userId content pageId none now
      (postSaveHook (store ++ [(newId, c)]) newId c, .ok newId)

/-- Stable insertion into a list sorted by the boolean comparator `le`
(`le a b` meaning `a` may come before `b`). -/
def insertBy (le : Comment → Comment → Bool) (x : Comment) :
    List Comment → List Comment
  | [] => [x]
  | y :: ys => if le x y then x :: y :: ys else y :: insertBy le x ys

/-- Insertion sort, modelling the store's sort stage. -/
def sortBy (le : Comment → Comment → Bool) : List Comment → List Comment
  | [] => []
  | x :: xs => insertBy le x (sortBy le xs)

/-- The three accepted values of the `sort` query parameter. -/
inductive SortMode where
  | newest
  | mostLiked
  | mostDisliked
deriving DecidableEq, Repr

/-- The sort criteria built by `getComments`: `newest` is `createdAt`
descending, `mostLiked` is likes-count descending then `createdAt`
descending, `mostDisliked` the same with dislikes. -/
def sortLE (mode : SortMode) (a b : Comment) : Bool :=
  match mode with
  | .newest => decide (b.createdAt ≤ a.createdAt)
  | .mostLiked =>
    decide (b.likes.length < a.likes.length) ||
      (b.likes.length == a.likes.length && decide (b.createdAt ≤ a.createdAt))
  | .mostDisliked =>
    decide (b.dislikes.length < a.dislikes.length) ||
      (b.dislikes.length == a.dislikes.length && decide (b.createdAt ≤ a.createdAt))

/-- The query `{ pageId, isDeleted: false, parentComment: null }` used by
`getComments`: all matching documents. -/
def topLevelQuery (store : Store) (pageId : String) : List Comment :=
  (store.map (·.2)).filter
    (fun c => c.pageId == pageId && !c.isDeleted && c.parentComment == none)

/-- The pagination metadata returned by `getComments`. -/
structure PageResult where
  items : List Comment
  totalItems : Nat
  totalPages : Nat
  currentPage : Nat
  pageSize : Nat
deriving DecidableEq, Repr

/-- The `getComments` controller: filter to the page's non-deleted top-level
comments, count them, sort, then skip `(page-1)*limit` documents and take
`limit`. -/
def getComments (store : Store) (pageId : String) (page limit : Nat)
    (mode : SortMode) : PageResult :=
  let filtered := topLevelQuery store pageId
  let total := filtered.length
  let sorted := sortBy (sortLE mode) filtered
  let skip := (page - 1) * limit
  { items := (sorted.drop skip).take limit,
    totalItems := total,
    totalPages := (total + limit - 1) / limit,
    currentPage := page,
    pageSize := limit }

/-- The `getReplies` controller: all non-deleted comments whose `parentComment`
is the given id, sorted by `createdAt` ascending. -/
def getReplies (store : Store) (cid : Nat) : List Comment :=
  sortBy (fun a b => decide (a.createdAt ≤ b.createdAt))
    ((store.map (·.2)).filter
      (fun c => c.parentComment == some cid && !c.isDeleted))

/-- One like/dislike toggle request, identifying the target comment and
the authenticated user. -/
inductive ReactOp where
  | like (cid uid : Nat)
  | dislike (cid uid : Nat)
deriving DecidableEq, Repr

/-- The store after serving one reaction request (a failed request leaves
the store unchanged). -/
def applyReact (store : Store) : ReactOp → Store
  | .like cid uid => (likeComment store cid uid).1
  | .dislike cid uid => (dislikeComment store cid uid).1

/-- The store after serving a sequence of reaction requests in order. -/
def applyReacts (store : Store) : List ReactOp → Store
  | [] => store
  | op :: ops => applyReacts (applyReact store op) ops

/-- Disjointness of one comment's reaction arrays: no user id occurs in
both `likes` and `dislikes`. -/
def disjointLD (c : Comment) : Prop :=
  ∀ u ∈ c.likes, u ∉ c.dislikes

instance (c : Comment) : Decidable (disjointLD c) :=
  inferInstanceAs (Decidable (∀ u ∈ c.likes, u ∉ c.dislikes))

/-- The store-wide disjointness invariant. -/
def storeInv (store : Store) : Prop :=
  ∀ e ∈ store, disjointLD e.2

instance (store : Store) : Decidable (storeInv store) :=
  inferInstanceAs (Decidable (∀ e ∈ store, disjointLD e.2))

/-- The likes array of the comment stored under `cid` (empty when absent). -/
def likesOf (store : Store) (cid : Nat) : List Nat :=
  ((findById store cid).map (·.likes)).getD []

/-- The dislikes array of the comment stored under `cid` (empty when absent). -/
def dislikesOf (store : Store) (cid : Nat) : List Nat :=
  ((findById store cid).map (·.dislikes)).getD []

/-! ### Concrete fixtures used by witnesses and counterexamples -/

/-- A comment whose author is user 2 and that user 7 currently dislikes. -/
def comment1 : Comment :=
  { content := "hello", author := 2, pageId := "page-1", likes := [],
    dislikes := [7], parentComment := none, replies := [], isDeleted := false,
    createdAt := 5 }

/-- A one-comment store. -/
def demoStore : Store := [(1, comment1)]

/-- A soft-deleted comment. -/
def deletedComment1 : Comment :=
  { content := "gone", author := 2, pageId := "page-a", likes := [],
    dislikes := [], parentComment := none, replies := [], isDeleted := true,
    createdAt := 3 }

/-- A store holding only a soft-deleted comment. -/
def deletedStore : Store := [(1, deletedComment1)]

/-- A top-level comment with one reply back-link. -/
def parentComment1 : Comment :=
  { content := "parent", author := 2, pageId := "page-a", likes := [],
    dislikes := [], parentComment := none, replies := [11], isDeleted := false,
    createdAt := 1 }

/-- A reply to `parentComment1` (stored under id 10). -/
def childComment1 : Comment :=
  { content := "child", author := 3, pageId := "page-a", likes := [],
    dislikes := [], parentComment := some 10, replies := [], isDeleted := false,
    createdAt := 2 }

/-- A two-comment thread: parent under id 10, reply under id 11. -/
def threadStore : Store := [(10, parentComment1), (11, childComment1)]

/-- A fresh top-level comment on page "p" with creation time `i`. -/
def mkTop (i : Nat) : Comment :=
  { content := "c", author := 0, pageId := "p", likes := [], dislikes := [],
    parentComment := none, replies := [], isDeleted := false, createdAt := i }

/-- A store with 25 non-deleted top-level comments on page "p". -/
def store25 : Store := (List.range 25).map (fun i => (i, mkTop i))

/-! ### Basic store lemmas -/

theorem findById_nil (k : Nat) : findById [] k = none := rfl

theorem findById_cons (q : Nat × Comment) (rest : Store) (k : Nat) :
    findById (q :: rest) k = if q.1 = k then some q.2 else findById rest k := by
  by_cases h : q.1 = k
  · simp [findById, List.find?_cons_of_pos, h]
  · simp [findById, List.find?_cons_of_neg, h]

theorem updateById_cons (q : Nat × Comment) (rest : Store) (k : Nat) (c : Comment) :
    updateById (q :: rest) k c =
      (if q.1 = k then (q.1, c) else q) :: updateById rest k c := by
  simp [updateById]

theorem findById_updateById_eq (s : Store) (k : Nat) (c : Comment) :
    findById (updateById s k c) k = (findById s k).map (fun _ => c) := by
  induction s with
  | nil => rfl
  | cons q rest ih =>
    rw [updateById_cons, findById_cons, findById_cons]
    by_cases h : q.1 = k
    · simp [h]
    · simp [h, ih]

theorem findById_updateById_ne (s : Store) (k k' : Nat) (c : Comment)
    (h : k' ≠ k) : findById (updateById s k c) k' = findById s k' := by
  induction s with
  | nil => rfl
  | cons q rest ih =>
    rw [updateById_cons, findById_cons, findById_cons]
    by_cases hq : q.1 = k
    · have hkk : ¬ (k = k') := fun hh => h hh.symm
      simp [hq, hkk, ih]
    · by_cases hk' : q.1 = k'
      · simp [hq, hk', h]
      · simp [hq, hk', ih]

theorem storeInv_findById {s : Store} {cid : Nat} {c : Comment}
    (h : storeInv s) (hf : findById s cid = some c) : disjointLD c := by
  unfold findById at hf
  cases hq : s.find? (fun p => p.1 == cid) with
  | none => rw [hq] at hf; simp at hf
  | some q =>
    rw [hq] at hf
    simp only [Option.map_some'] at hf
    have h2 : q.2 = c := by simpa using hf
    exact h2 ▸ h q (List.mem_of_find?_eq_some hq)

/-! ### Unfolding equations for the operations -/

theorem postSaveHook_root {s : Store} {k : Nat} {doc : Comment}
    (h : doc.parentComment = none) : postSaveHook s k doc = s := by
  unfold postSaveHook; rw [h]

theorem postSaveHook_absent {s : Store} {k : Nat} {doc : Comment} {p : Nat}
    (h : doc.parentComment = some p) (hf : findById s p = none) :
    postSaveHook s k doc = s := by
  unfold postSaveHook; rw [h]; simp [hf]

theorem postSaveHook_present {s : Store} {k : Nat} {doc : Comment} {p : Nat}
    {parentC : Comment} (h : doc.parentComment = some p)
    (hf : findById s p = some parentC) :
    postSaveHook s k doc =
      updateById s p { parentC with replies := addToSet parentC.replies k } := by
  unfold postSaveHook; rw [h]; simp [hf]

theorem likeComment_absent {s : Store} {cid uid : Nat}
    (hf : findById s cid = none) :
    likeComment s cid uid = (s, .error .NOT_FOUND) := by
  unfold likeComment; simp [hf]

theorem likeComment_present {s : Store} {cid uid : Nat} {c : Comment}
    (hf : findById s cid = some c) :
    likeComment s cid uid =
      (saveComment s cid (likeToggle c uid),
       .ok (if c.likes.contains uid then "Like removed" else "Comment liked")) := by
  unfold likeComment; simp [hf]

theorem dislikeComment_absent {s : Store} {cid uid : Nat}
    (hf : findById s cid = none) :
    dislikeComment s cid uid = (s, .error .NOT_FOUND) := by
  unfold dislikeComment; simp [hf]

theorem dislikeComment_present {s : Store} {cid uid : Nat} {c : Comment}
    (hf : findById s cid = some c) :
    dislikeComment s cid uid =
      (saveComment s cid (dislikeToggle c uid),
       .ok (if c.dislikes.contains uid then "Dislike removed" else "Comment disliked")) := by
  unfold dislikeComment; simp [hf]

theorem storeInv_updateById {s : Store} {k : Nat} {c : Comment}
    (h : storeInv s) (hc : disjointLD c) : storeInv (updateById s k c) := by
  intro e he
  rcases List.mem_map.mp he with ⟨a, ha, rfl⟩
  by_cases hk : a.1 = k
  · simp only [hk, beq_self_eq_true, if_true]
    exact hc
  · have hb : (a.1 == k) = false := by simpa using hk
    simp only [hb, if_false]
    exact h a ha

theorem storeInv_postSaveHook {s : Store} {k : Nat} {doc : Comment}
    (h : storeInv s) : storeInv (postSaveHook s k doc) := by
  cases hdoc : doc.parentComment with
  | none => rw [postSaveHook_root hdoc]; exact h
  | some p =>
    cases hf : findById s p with
    | none => rw [postSaveHook_absent hdoc hf]; exact h
    | some parentC =>
      rw [postSaveHook_present hdoc hf]
      exact storeInv_updateById h (fun u hu => storeInv_findById h hf u hu)

theorem disjointLD_likeToggle {c : Comment} (h : disjointLD c) (uid : Nat) :
    disjointLD (likeToggle c uid) := by
  unfold likeToggle
  by_cases hl : c.likes.contains uid
  · simp only [hl, if_true]
    intro u hu hd
    exact h u (List.mem_of_mem_filter hu) hd
  · simp only [hl, if_false]
    intro u hu hd
    rcases List.mem_append.mp hu with hu' | hu'
    · rcases List.mem_filter.mp hd with ⟨hd', _⟩
      exact h u hu' hd'
    · have huid : u = uid := by simpa using hu'
      rcases List.mem_filter.mp hd with ⟨_, hne⟩
      simp [huid] at hne

theorem disjointLD_dislikeToggle {c : Comment} (h : disjointLD c) (uid : Nat) :
    disjointLD (dislikeToggle c uid) := by
  unfold dislikeToggle
  by_cases hl : c.dislikes.contains uid
  · simp only [hl, if_true]
    intro u hu hd
    exact h u hu (List.mem_of_mem_filter hd)
  · simp only [hl, if_false]
    intro u hu hd
    rcases List.mem_append.mp hd with hd' | hd'
    · rcases List.mem_filter.mp hu with ⟨hu', _⟩
      exact h u hu' hd'
    · have huid : u = uid := by simpa using hd'
      rcases List.mem_filter.mp hu with ⟨_, hne⟩
      simp [huid] at hne

theorem storeInv_saveComment {s : Store} {k : Nat} {c : Comment}
    (h : storeInv s) (hc : disjointLD c) : storeInv (saveComment s k c) :=
  storeInv_postSaveHook (storeInv_updateById h hc)

theorem storeInv_applyReact {s : Store} (h : storeInv s) (op : ReactOp) :
    storeInv (applyReact s op) := by
  cases op with
  | like cid uid =>
    show storeInv (likeComment s cid uid).1
    cases hf : findById s cid with
    | none => rw [likeComment_absent hf]; exact h
    | some comment =>
      rw [likeComment_present hf]
      exact storeInv_saveComment h
        (disjointLD_likeToggle (storeInv_findById h hf) uid)
  | dislike cid uid =>
    show storeInv (dislikeComment s cid uid).1
    cases hf : findById s cid with
    | none => rw [dislikeComment_absent hf]; exact h
    | some comment =>
      rw [dislikeComment_present hf]
      exact storeInv_saveComment h
        (disjointLD_dislikeToggle (storeInv_findById h hf) uid)

theorem storeInv_applyReacts {s : Store} (h : storeInv s) (ops : List ReactOp) :
    storeInv (applyReacts s ops) := by
  induction ops generalizing s with
  | nil => exact h
  | cons op rest ih => exact ih (storeInv_applyReact h op)

/-! ### Lemmas about saving a document -/

theorem addToSet_mem {l : List Nat} {x : Nat} (h : x ∈ l) : addToSet l x = l := by
  simp [addToSet, h]

theorem addToSet_not_mem {l : List Nat} {x : Nat} (h : x ∉ l) :
    addToSet l x = l ++ [x] := by
  simp [addToSet, h]

/-- Saving a document under `cid` makes it the one `findById` returns at
`cid`, provided the document is not its own parent. -/
theorem findById_saveComment_self {s : Store} {cid : Nat} {c c' : Comment}
    (hf : findById s cid = some c) (hp : c'.parentComment ≠ some cid) :
    findById (saveComment s cid c') cid = some c' := by
  unfold saveComment
  have h1 : findById (updateById s cid c') cid = some c' := by
    rw [findById_updateById_eq, hf]; rfl
  cases hdoc : c'.parentComment with
  | none => rw [postSaveHook_root hdoc]; exact h1
  | some p =>
    have hpne : p ≠ cid := fun hh => hp (hh ▸ hdoc)
    cases hfp : findById (updateById s cid c') p with
    | none => rw [postSaveHook_absent hdoc hfp]; exact h1
    | some parentC =>
      rw [postSaveHook_present hdoc hfp]
      rw [findById_updateById_ne _ _ _ _ (Ne.symm hpne)]
      exact h1

/-- Saving a document under `cid` leaves every other id's `findById` result
unchanged, provided the document is not its own parent and, when it has a
present parent, the parent's `replies` back-link already carries `cid`. -/
theorem findById_saveComment_frame {s : Store} {cid : Nat} {c' : Comment}
    (hp : c'.parentComment ≠ some cid)
    (hbl : ∀ p pc, c'.parentComment = some p → findById s p = some pc →
      cid ∈ pc.replies) :
    ∀ k, k ≠ cid → findById (saveComment s cid c') k = findById s k := by
  intro k hk
  unfold saveComment
  have hupd : findById (updateById s cid c') k = findById s k :=
    findById_updateById_ne _ _ _ _ hk
  cases hdoc : c'.parentComment with
  | none => rw [postSaveHook_root hdoc]; exact hupd
  | some p =>
    have hpne : p ≠ cid := fun hh => hp (hh ▸ hdoc)
    cases hfp : findById (updateById s cid c') p with
    | none => rw [postSaveHook_absent hdoc hfp]; exact hupd
    | some parentC =>
      have hfp' : findById s p = some parentC := by
        rw [← findById_updateById_ne s cid p c' hpne]
        exact hfp
      have hmem : cid ∈ parentC.replies := hbl p parentC hdoc hfp'
      rw [postSaveHook_present hdoc hfp]
      rw [addToSet_mem hmem]
      by_cases hkp : k = p
      · subst hkp
        rw [findById_updateById_eq, hfp]
        exact hfp'.symm
      · rw [findById_updateById_ne _ _ _ _ hkp]
        exact hupd

/-! ### Sorting lemmas -/

theorem mem_insertBy (le : Comment → Comment → Bool) (x a : Comment) :
    ∀ l, a ∈ insertBy le x l ↔ a = x ∨ a ∈ l
  | [] => by simp [insertBy]
  | y :: ys => by
    by_cases h : le x y
    · simp [insertBy, h]
    · have hb : le x y = false := by simpa using h
      have hrw : insertBy le x (y :: ys) = y :: insertBy le x ys := by
        simp [insertBy, hb]
      rw [hrw]
      simp only [List.mem_cons, mem_insertBy le x a ys]
      tauto

theorem mem_sortBy (le : Comment → Comment → Bool) (a : Comment) :
    ∀ l, a ∈ sortBy le l ↔ a ∈ l
  | [] => Iff.rfl
  | x :: xs => by
    simp only [sortBy, mem_insertBy, mem_sortBy le a xs, List.mem_cons]

theorem length_insertBy (le : Comment → Comment → Bool) (x : Comment) :
    ∀ l, (insertBy le x l).length = l.length + 1
  | [] => rfl
  | y :: ys => by
    by_cases h : le x y
    · simp [insertBy, h]
    · simp [insertBy, h, length_insertBy le x ys]

theorem length_sortBy (le : Comment → Comment → Bool) :
    ∀ l, (sortBy le l).length = l.length
  | [] => rfl
  | x :: xs => by
    simp [sortBy, length_insertBy, length_sortBy le xs]

/-! ### Claim theorems -/

/-- C1: starting from any store in which every comment's `likes` and
`dislikes` arrays are disjoint (as every freshly created comment is, both
arrays defaulting to empty), serving any sequence of like/dislike toggle
requests keeps every comment's `likes` and `dislikes` disjoint; since the
claim quantifies over all sequences, the state after each intermediate
operation is covered by instantiating with the corresponding prefix. -/
theorem C1_react_sequences_preserve_disjointness (store : Store)
    (h : storeInv store) (ops : List ReactOp) :
    storeInv (applyReacts store ops) :=
  storeInv_applyReacts h ops

/-- Witness for C1: a concrete store and toggle sequence. -/
theorem C1_react_sequences_preserve_disjointness_witness :
    storeInv demoStore ∧
      storeInv (applyReacts demoStore
        [ReactOp.like 1 7, ReactOp.dislike 1 9, ReactOp.like 1 9]) :=
  ⟨by decide,
   C1_react_sequences_preserve_disjointness demoStore (by decide)
     [ReactOp.like 1 7, ReactOp.dislike 1 9, ReactOp.like 1 9]⟩

/-- C2: for an existing comment (that is not its own parent), liking when
the user already likes removes the like and leaves the dislikes untouched
with message "Like removed"; liking when absent appends the like and
filters the user out of the dislikes with message "Comment liked";
disliking is symmetric with messages "Dislike removed" / "Comment
disliked". -/
theorem C2_reaction_toggle (store : Store) (cid uid : Nat) (comment : Comment)
    (hf : findById store cid = some comment)
    (hp : comment.parentComment ≠ some cid) :
    (uid ∈ comment.likes →
      (likeComment store cid uid).2 = .ok "Like removed" ∧
      findById (likeComment store cid uid).1 cid =
        some { comment with likes := comment.likes.filter (fun i => i != uid) }) ∧
    (uid ∉ comment.likes →
      (likeComment store cid uid).2 = .ok "Comment liked" ∧
      findById (likeComment store cid uid).1 cid =
        some { comment with likes := comment.likes ++ [uid],
                            dislikes := comment.dislikes.filter (fun i => i != uid) }) ∧
    (uid ∈ comment.dislikes →
      (dislikeComment store cid uid).2 = .ok "Dislike removed" ∧
      findById (dislikeComment store cid uid).1 cid =
        some { comment with dislikes := comment.dislikes.filter (fun i => i != uid) }) ∧
    (uid ∉ comment.dislikes →
      (dislikeComment store cid uid).2 = .ok "Comment disliked" ∧
      findById (dislikeComment store cid uid).1 cid =
        some { comment with dislikes := comment.dislikes ++ [uid],
                            likes := comment.likes.filter (fun i => i != uid) }) := by
  have hlc : likeComment store cid uid =
      (saveComment store cid (likeToggle comment uid),
       .ok (if comment.likes.contains uid then "Like removed"
            else "Comment liked")) := likeComment_present hf
  have hdc : dislikeComment store cid uid =
      (saveComment store cid (dislikeToggle comment uid),
       .ok (if comment.dislikes.contains uid then "Dislike removed"
            else "Comment disliked")) := dislikeComment_present hf
  refine ⟨?_, ?_, ?_, ?_⟩
  · intro h
    have hc : comment.likes.contains uid = true := by simpa using h
    have ht : likeToggle comment uid =
        { comment with likes := comment.likes.filter (fun i => i != uid) } := by
      unfold likeToggle; rw [if_pos hc]
    constructor
    · rw [hlc, if_pos hc]
    · rw [hlc]
      show findById (saveComment store cid (likeToggle comment uid)) cid = _
      rw [ht]
      exact findById_saveComment_self hf hp
  · intro h
    have hc : comment.likes.contains uid = false := by simpa using h
    have ht : likeToggle comment uid =
        { comment with likes := comment.likes ++ [uid],
                       dislikes := comment.dislikes.filter (fun i => i != uid) } := by
      unfold likeToggle; rw [if_neg (by simpa using h)]
    constructor
    · rw [hlc, if_neg (show ¬ (comment.likes.contains uid = true) by simpa using h)]
    · rw [hlc]
      show findById (saveComment store cid (likeToggle comment uid)) cid = _
      rw [ht]
      exact findById_saveComment_self hf hp
  · intro h
    have hc : comment.dislikes.contains uid = true := by simpa using h
    have ht : dislikeToggle comment uid =
        { comment with dislikes := comment.dislikes.filter (fun i => i != uid) } := by
      unfold dislikeToggle; rw [if_pos hc]
    constructor
    · rw [hdc, if_pos hc]
    · rw [hdc]
      show findById (saveComment store cid (dislikeToggle comment uid)) cid = _
      rw [ht]
      exact findById_saveComment_self hf hp
  · intro h
    have hc : comment.dislikes.contains uid = false := by simpa using h
    have ht : dislikeToggle comment uid =
        { comment with dislikes := comment.dislikes ++ [uid],
                       likes := comment.likes.filter (fun i => i != uid) } := by
      unfold dislikeToggle; rw [if_neg (by simpa using h)]
    constructor
    · rw [hdc, if_neg (show ¬ (comment.dislikes.contains uid = true) by simpa using h)]
    · rw [hdc]
      show findById (saveComment store cid (dislikeToggle comment uid)) cid = _
      rw [ht]
      exact findById_saveComment_self hf hp

/-- Witness for C2: user 7 currently dislikes comment 1, so a dislike
request removes the dislike and reports "Dislike removed". -/
theorem C2_reaction_toggle_witness :
    (dislikeComment demoStore 1 7).2 = Except.ok "Dislike removed" :=
  ((C2_reaction_toggle demoStore 1 7 comment1 rfl (by decide)).2.2.1
    (by decide)).1

theorem filter_ne_of_not_mem {l : List Nat} {x : Nat} (h : x ∉ l) :
    l.filter (fun i => i != x) = l := by
  apply List.filter_eq_self.mpr
  intro a ha
  have : a ≠ x := fun he => h (he ▸ ha)
  simpa using this

theorem likeToggle_of_mem {c : Comment} {uid : Nat} (h : uid ∈ c.likes) :
    likeToggle c uid =
      { c with likes := c.likes.filter (fun i => i != uid) } := by
  unfold likeToggle
  rw [if_pos (show c.likes.contains uid = true by simpa using h)]

theorem likeToggle_of_not_mem {c : Comment} {uid : Nat} (h : uid ∉ c.likes) :
    likeToggle c uid =
      { c with likes := c.likes ++ [uid],
               dislikes := c.dislikes.filter (fun i => i != uid) } := by
  unfold likeToggle
  rw [if_neg (show ¬ c.likes.contains uid = true by simpa using h)]

theorem dislikeToggle_of_mem {c : Comment} {uid : Nat} (h : uid ∈ c.dislikes) :
    dislikeToggle c uid =
      { c with dislikes := c.dislikes.filter (fun i => i != uid) } := by
  unfold dislikeToggle
  rw [if_pos (show c.dislikes.contains uid = true by simpa using h)]

theorem dislikeToggle_of_not_mem {c : Comment} {uid : Nat} (h : uid ∉ c.dislikes) :
    dislikeToggle c uid =
      { c with dislikes := c.dislikes ++ [uid],
               likes := c.likes.filter (fun i => i != uid) } := by
  unfold dislikeToggle
  rw [if_neg (show ¬ c.dislikes.contains uid = true by simpa using h)]

theorem likeToggle_parent (c : Comment) (uid : Nat) :
    (likeToggle c uid).parentComment = c.parentComment := by
  unfold likeToggle; split <;> rfl

theorem dislikeToggle_parent (c : Comment) (uid : Nat) :
    (dislikeToggle c uid).parentComment = c.parentComment := by
  unfold dislikeToggle; split <;> rfl

/-- One like request on a present comment replaces the stored document by
the toggled one. -/
theorem step_like {s : Store} {cid uid : Nat} {c : Comment}
    (hf : findById s cid = some c) (hp : c.parentComment ≠ some cid) :
    findById (likeComment s cid uid).1 cid = some (likeToggle c uid) := by
  rw [likeComment_present hf]
  exact findById_saveComment_self hf
    (by rw [likeToggle_parent]; exact hp)

/-- One dislike request on a present comment replaces the stored document
by the toggled one. -/
theorem step_dislike {s : Store} {cid uid : Nat} {c : Comment}
    (hf : findById s cid = some c) (hp : c.parentComment ≠ some cid) :
    findById (dislikeComment s cid uid).1 cid = some (dislikeToggle c uid) := by
  rw [dislikeComment_present hf]
  exact findById_saveComment_self hf
    (by rw [dislikeToggle_parent]; exact hp)

theorem likeToggle_twice_restore {c : Comment} {uid : Nat}
    (hd : uid ∉ c.dislikes) :
    (∀ v, v ∈ (likeToggle (likeToggle c uid) uid).likes ↔ v ∈ c.likes) ∧
    (likeToggle (likeToggle c uid) uid).dislikes = c.dislikes := by
  by_cases hc : uid ∈ c.likes
  · rw [likeToggle_of_mem hc]
    have hA : uid ∉ ({ c with
        likes := c.likes.filter (fun i => i != uid) } : Comment).likes := by
      show uid ∉ c.likes.filter (fun i => i != uid)
      simp
    rw [likeToggle_of_not_mem hA]
    constructor
    · intro v
      show v ∈ c.likes.filter (fun i => i != uid) ++ [uid] ↔ v ∈ c.likes
      by_cases hv : v = uid
      · subst hv; simp [hc]
      · simp [List.mem_filter, hv]
    · show c.dislikes.filter (fun i => i != uid) = c.dislikes
      exact filter_ne_of_not_mem hd
  · rw [likeToggle_of_not_mem hc]
    have hA : uid ∈ ({ c with
        likes := c.likes ++ [uid],
        dislikes := c.dislikes.filter (fun i => i != uid) } : Comment).likes := by
      show uid ∈ c.likes ++ [uid]
      simp
    rw [likeToggle_of_mem hA]
    constructor
    · intro v
      show v ∈ (c.likes ++ [uid]).filter (fun i => i != uid) ↔ v ∈ c.likes
      rw [List.filter_append]
      have h1 : List.filter (fun i => i != uid) [uid] = [] := by simp
      rw [h1, List.append_nil, filter_ne_of_not_mem hc]
    · show c.dislikes.filter (fun i => i != uid) = c.dislikes
      exact filter_ne_of_not_mem hd

theorem likeToggle_twice_opp {c : Comment} {uid : Nat}
    (hd : uid ∈ c.dislikes) (hl : uid ∉ c.likes) :
    uid ∉ (likeToggle (likeToggle c uid) uid).likes ∧
    uid ∉ (likeToggle (likeToggle c uid) uid).dislikes := by
  rw [likeToggle_of_not_mem hl]
  have hA : uid ∈ ({ c with
      likes := c.likes ++ [uid],
      dislikes := c.dislikes.filter (fun i => i != uid) } : Comment).likes := by
    show uid ∈ c.likes ++ [uid]
    simp
  rw [likeToggle_of_mem hA]
  constructor
  · show uid ∉ (c.likes ++ [uid]).filter (fun i => i != uid)
    simp
  · show uid ∉ c.dislikes.filter (fun i => i != uid)
    simp

theorem dislikeToggle_twice_restore {c : Comment} {uid : Nat}
    (hl : uid ∉ c.likes) :
    (∀ v, v ∈ (dislikeToggle (dislikeToggle c uid) uid).dislikes ↔
      v ∈ c.dislikes) ∧
    (dislikeToggle (dislikeToggle c uid) uid).likes = c.likes := by
  by_cases hc : uid ∈ c.dislikes
  · rw [dislikeToggle_of_mem hc]
    have hA : uid ∉ ({ c with
        dislikes := c.dislikes.filter (fun i => i != uid) } : Comment).dislikes := by
      show uid ∉ c.dislikes.filter (fun i => i != uid)
      simp
    rw [dislikeToggle_of_not_mem hA]
    constructor
    · intro v
      show v ∈ c.dislikes.filter (fun i => i != uid) ++ [uid] ↔ v ∈ c.dislikes
      by_cases hv : v = uid
      · subst hv; simp [hc]
      · simp [List.mem_filter, hv]
    · show c.likes.filter (fun i => i != uid) = c.likes
      exact filter_ne_of_not_mem hl
  · rw [dislikeToggle_of_not_mem hc]
    have hA : uid ∈ ({ c with
        dislikes := c.dislikes ++ [uid],
        likes := c.likes.filter (fun i => i != uid) } : Comment).dislikes := by
      show uid ∈ c.dislikes ++ [uid]
      simp
    rw [dislikeToggle_of_mem hA]
    constructor
    · intro v
      show v ∈ (c.dislikes ++ [uid]).filter (fun i => i != uid) ↔ v ∈ c.dislikes
      rw [List.filter_append]
      have h1 : List.filter (fun i => i != uid) [uid] = [] := by simp
      rw [h1, List.append_nil, filter_ne_of_not_mem hc]
    · show c.likes.filter (fun i => i != uid) = c.likes
      exact filter_ne_of_not_mem hl

theorem dislikeToggle_twice_opp {c : Comment} {uid : Nat}
    (hl : uid ∈ c.likes) (hd : uid ∉ c.dislikes) :
    uid ∉ (dislikeToggle (dislikeToggle c uid) uid).likes ∧
    uid ∉ (dislikeToggle (dislikeToggle c uid) uid).dislikes := by
  rw [dislikeToggle_of_not_mem hd]
  have hA : uid ∈ ({ c with
      dislikes := c.dislikes ++ [uid],
      likes := c.likes.filter (fun i => i != uid) } : Comment).dislikes := by
    show uid ∈ c.dislikes ++ [uid]
    simp
  rw [dislikeToggle_of_mem hA]
  constructor
  · show uid ∉ c.likes.filter (fun i => i != uid)
    simp
  · show uid ∉ (c.dislikes ++ [uid]).filter (fun i => i != uid)
    simp

theorem likeToggle_flips (c : Comment) (uid : Nat) :
    uid ∈ (likeToggle c uid).likes ↔ uid ∉ c.likes := by
  by_cases hc : uid ∈ c.likes
  · rw [likeToggle_of_mem hc]
    show uid ∈ c.likes.filter (fun i => i != uid) ↔ _
    simp [hc]
  · rw [likeToggle_of_not_mem hc]
    show uid ∈ c.likes ++ [uid] ↔ _
    simp [hc]

theorem dislikeToggle_flips (c : Comment) (uid : Nat) :
    uid ∈ (dislikeToggle c uid).dislikes ↔ uid ∉ c.dislikes := by
  by_cases hc : uid ∈ c.dislikes
  · rw [dislikeToggle_of_mem hc]
    show uid ∈ c.dislikes.filter (fun i => i != uid) ↔ _
    simp [hc]
  · rw [dislikeToggle_of_not_mem hc]
    show uid ∈ c.dislikes ++ [uid] ↔ _
    simp [hc]

/-- C3 is false as stated: user 7 starts with a dislike on comment 1; a
like toggled twice returns the likes to empty, but the pre-existing
dislike is gone, so the reaction state before the pair is not restored. -/
theorem C3_double_toggle_counterexample :
    dislikesOf demoStore 1 = [7] ∧
    likesOf demoStore 1 = [] ∧
    dislikesOf (applyReacts demoStore [ReactOp.like 1 7, ReactOp.like 1 7]) 1 = [] ∧
    likesOf (applyReacts demoStore [ReactOp.like 1 7, ReactOp.like 1 7]) 1 = [] := by
  decide

/-- C3 amended: toggling the same reaction twice restores the user's
`likes`/`dislikes` state exactly when the user did not hold the opposite
reaction before the pair; when the opposite reaction was held (and the
two sets were disjoint), the pair erases it, leaving the user with no
reaction at all.  A single application always flips the user's membership
in the target set. -/
theorem C3_double_toggle_amended (store : Store) (cid uid : Nat)
    (comment : Comment) (hf : findById store cid = some comment)
    (hp : comment.parentComment ≠ some cid) :
    (uid ∉ comment.dislikes →
      ∃ c2, findById (applyReacts store
          [ReactOp.like cid uid, ReactOp.like cid uid]) cid = some c2 ∧
        (∀ v, v ∈ c2.likes ↔ v ∈ comment.likes) ∧
        c2.dislikes = comment.dislikes) ∧
    (uid ∈ comment.dislikes → uid ∉ comment.likes →
      ∃ c2, findById (applyReacts store
          [ReactOp.like cid uid, ReactOp.like cid uid]) cid = some c2 ∧
        uid ∉ c2.likes ∧ uid ∉ c2.dislikes) ∧
    (uid ∉ comment.likes →
      ∃ c2, findById (applyReacts store
          [ReactOp.dislike cid uid, ReactOp.dislike cid uid]) cid = some c2 ∧
        (∀ v, v ∈ c2.dislikes ↔ v ∈ comment.dislikes) ∧
        c2.likes = comment.likes) ∧
    (uid ∈ comment.likes → uid ∉ comment.dislikes →
      ∃ c2, findById (applyReacts store
          [ReactOp.dislike cid uid, ReactOp.dislike cid uid]) cid = some c2 ∧
        uid ∉ c2.likes ∧ uid ∉ c2.dislikes) ∧
    (∃ c1, findById (applyReacts store [ReactOp.like cid uid]) cid = some c1 ∧
      (uid ∈ c1.likes ↔ uid ∉ comment.likes)) ∧
    (∃ c1, findById (applyReacts store [ReactOp.dislike cid uid]) cid = some c1 ∧
      (uid ∈ c1.dislikes ↔ uid ∉ comment.dislikes)) := by
  have hp1 : (likeToggle comment uid).parentComment ≠ some cid := by
    rw [likeToggle_parent]; exact hp
  have hp1' : (dislikeToggle comment uid).parentComment ≠ some cid := by
    rw [dislikeToggle_parent]; exact hp
  have h1 : findById (likeComment store cid uid).1 cid =
      some (likeToggle comment uid) := step_like hf hp
  have h2 : findById (likeComment (likeComment store cid uid).1 cid uid).1 cid =
      some (likeToggle (likeToggle comment uid) uid) := step_like h1 hp1
  have h1' : findById (dislikeComment store cid uid).1 cid =
      some (dislikeToggle comment uid) := step_dislike hf hp
  have h2' : findById
      (dislikeComment (dislikeComment store cid uid).1 cid uid).1 cid =
      some (dislikeToggle (dislikeToggle comment uid) uid) :=
    step_dislike h1' hp1'
  refine ⟨?_, ?_, ?_, ?_, ?_, ?_⟩
  · intro hd
    exact ⟨likeToggle (likeToggle comment uid) uid, h2,
      (likeToggle_twice_restore hd).1, (likeToggle_twice_restore hd).2⟩
  · intro hd hl
    exact ⟨likeToggle (likeToggle comment uid) uid, h2,
      (likeToggle_twice_opp hd hl).1, (likeToggle_twice_opp hd hl).2⟩
  · intro hl
    exact ⟨dislikeToggle (dislikeToggle comment uid) uid, h2',
      (dislikeToggle_twice_restore hl).1, (dislikeToggle_twice_restore hl).2⟩
  · intro hl hd
    exact ⟨dislikeToggle (dislikeToggle comment uid) uid, h2',
      (dislikeToggle_twice_opp hl hd).1, (dislikeToggle_twice_opp hl hd).2⟩
  · exact ⟨likeToggle comment uid, h1, likeToggle_flips comment uid⟩
  · exact ⟨dislikeToggle comment uid, h1', dislikeToggle_flips comment uid⟩

/-- Witness for the amended C3: user 7 holds a dislike on comment 1, so a
like pair leaves user 7 with no reaction at all. -/
theorem C3_double_toggle_amended_witness :
    7 ∈ comment1.dislikes ∧ 7 ∉ comment1.likes ∧
    (∃ c2, findById (applyReacts demoStore
        [ReactOp.like 1 7, ReactOp.like 1 7]) 1 = some c2 ∧
      7 ∉ c2.likes ∧ 7 ∉ c2.dislikes) :=
  ⟨by decide, by decide,
   (C3_double_toggle_amended demoStore 1 7 comment1 rfl (by decide)).2.1
     (by decide) (by decide)⟩

/-! ### Unfolding equations for edit, delete and create -/

theorem updateComment_absent {s : Store} {cid r : Nat} {content : String}
    (hf : findById s cid = none) :
    updateComment s cid r content = (s, .error .NOT_FOUND) := by
  unfold updateComment; simp only [hf]

theorem updateComment_forbidden {s : Store} {cid r : Nat} {content : String}
    {c : Comment} (hf : findById s cid = some c) (ha : c.author ≠ r) :
    updateComment s cid r content = (s, .error .FORBIDDEN) := by
  unfold updateComment
  simp only [hf]
  rw [if_pos (show (c.author != r) = true by simpa using ha)]

theorem updateComment_auth {s : Store} {cid r : Nat} {content : String}
    {c : Comment} (hf : findById s cid = some c) (ha : c.author = r) :
    updateComment s cid r content =
      (if !validContent content then (s, .error .VALIDATION)
       else (saveComment s cid { c with content := strTrim content }, .ok ())) := by
  unfold updateComment
  simp only [hf]
  rw [if_neg (show ¬ (c.author != r) = true by simp [ha])]

theorem deleteComment_absent {s : Store} {cid r : Nat}
    (hf : findById s cid = none) :
    deleteComment s cid r = (s, .error .NOT_FOUND) := by
  unfold deleteComment; simp only [hf]

theorem deleteComment_forbidden {s : Store} {cid r : Nat} {c : Comment}
    (hf : findById s cid = some c) (ha : c.author ≠ r) :
    deleteComment s cid r = (s, .error .FORBIDDEN) := by
  unfold deleteComment
  simp only [hf]
  rw [if_pos (show (c.author != r) = true by simpa using ha)]

theorem deleteComment_auth {s : Store} {cid r : Nat} {c : Comment}
    (hf : findById s cid = some c) (ha : c.author = r) :
    deleteComment s cid r =
      (saveComment s cid { c with isDeleted := true }, .ok ()) := by
  unfold deleteComment
  simp only [hf]
  rw [if_neg (show ¬ (c.author != r) = true by simp [ha])]

theorem createComment_parent_absent {s : Store} {u : Nat}
    {content pageId : String} {pid n now : Nat}
    (hf : findById s pid = none) :
    createComment s u content pageId (some pid) n now =
      (s, .error .NOT_FOUND) := by
  unfold createComment; simp only [hf]

theorem createComment_parent_present {s : Store} {u : Nat}
    {content pageId : String} {pid n now : Nat} {pc : Comment}
    (hf : findById s pid = some pc) :
    createComment s u content pageId (some pid) n now =
      (if !(validContent content && pageId != "") then (s, .error .VALIDATION)
       else
        (postSaveHook (s ++ [(n, newComment u content pageId (some pid) now)]) n
          (newComment u content pageId (some pid) now), .ok n)) := by
  unfold createComment; simp only [hf]

theorem updateComment_present_not_404 {s : Store} {cid r : Nat}
    {content : String} {c : Comment} (hf : findById s cid = some c) :
    (updateComment s cid r content).2 ≠ Except.error ErrorType.NOT_FOUND := by
  by_cases ha : c.author = r
  · rw [updateComment_auth hf ha]
    by_cases hv : (!validContent content) = true
    · rw [if_pos hv]
      exact fun hcontra => ErrorType.noConfusion (Except.error.inj hcontra)
    · rw [if_neg hv]
      exact fun hcontra => Except.noConfusion hcontra
  · rw [updateComment_forbidden hf ha]
    exact fun hcontra => ErrorType.noConfusion (Except.error.inj hcontra)

theorem createComment_present_not_404 {s : Store} {u : Nat}
    {content pageId : String} {pid n now : Nat} {pc : Comment}
    (hf : findById s pid = some pc) :
    (createComment s u content pageId (some pid) n now).2 ≠
      Except.error ErrorType.NOT_FOUND := by
  rw [createComment_parent_present hf]
  by_cases hv : (!(validContent content && pageId != "")) = true
  · rw [if_pos hv]
    exact fun hcontra => ErrorType.noConfusion (Except.error.inj hcontra)
  · rw [if_neg hv]
    exact fun hcontra => Except.noConfusion hcontra

/-- C4 is false as stated: comment 1 in `deletedStore` is soft-deleted
(`isDeleted = true`), yet a like succeeds and mutates it, a reply pointing
at it is created successfully, and an edit by its author succeeds — none
of them fail with `NotFoundError`. -/
theorem C4_soft_deleted_mutable_counterexample :
    deletedComment1.isDeleted = true ∧
    (likeComment deletedStore 1 7).2 = Except.ok "Comment liked" ∧
    likesOf (likeComment deletedStore 1 7).1 1 = [7] ∧
    (createComment deletedStore 9 "reply" "page-a" (some 1) 2 5).2 =
      Except.ok 2 ∧
    (updateComment deletedStore 1 2 "edited").2 = Except.ok () := by
  decide

/-- C4 amended: the mutation operations check only that the target (or
parent) comment id resolves, never its `isDeleted` flag.  When the id does
not resolve, every one of them fails with `NotFoundError` and leaves the
store unchanged; when it resolves — soft-deleted or not — reactions
succeed, and edit and reply creation never fail with `NotFoundError`. -/
theorem C4_notfound_only_on_absence (store : Store)
    (cid uid requesterId newId now : Nat) (content pageId : String) :
    (findById store cid = none →
      likeComment store cid uid = (store, Except.error ErrorType.NOT_FOUND) ∧
      dislikeComment store cid uid = (store, Except.error ErrorType.NOT_FOUND) ∧
      updateComment store cid requesterId content =
        (store, Except.error ErrorType.NOT_FOUND) ∧
      createComment store uid content pageId (some cid) newId now =
        (store, Except.error ErrorType.NOT_FOUND)) ∧
    (∀ c, findById store cid = some c →
      (∃ m, (likeComment store cid uid).2 = Except.ok m) ∧
      (∃ m, (dislikeComment store cid uid).2 = Except.ok m) ∧
      (updateComment store cid requesterId content).2 ≠
        Except.error ErrorType.NOT_FOUND ∧
      (createComment store uid content pageId (some cid) newId now).2 ≠
        Except.error ErrorType.NOT_FOUND) := by
  constructor
  · intro hf
    exact ⟨likeComment_absent hf, dislikeComment_absent hf,
      updateComment_absent hf, createComment_parent_absent hf⟩
  · intro c hf
    refine ⟨?_, ?_, ?_, ?_⟩
    · exact ⟨if c.likes.contains uid then "Like removed" else "Comment liked",
        by rw [likeComment_present hf]⟩
    · exact ⟨if c.dislikes.contains uid then "Dislike removed"
          else "Comment disliked",
        by rw [dislikeComment_present hf]⟩
    · exact updateComment_present_not_404 hf
    · exact createComment_present_not_404 hf

/-- Witness for the amended C4: the soft-deleted comment 1 is present, so
a like succeeds. -/
theorem C4_notfound_only_on_absence_witness :
    findById deletedStore 1 = some deletedComment1 ∧
    (∃ m, (likeComment deletedStore 1 7).2 = Except.ok m) :=
  ⟨rfl,
   ((C4_notfound_only_on_absence deletedStore 1 7 2 2 5 "reply" "page-a").2
     deletedComment1 rfl).1⟩

/-! ### Read-path membership lemmas -/

theorem findById_mem_values {s : Store} {k : Nat} {d : Comment}
    (h : findById s k = some d) : d ∈ s.map (·.2) := by
  unfold findById at h
  cases hq : s.find? (fun p => p.1 == k) with
  | none => rw [hq] at h; simp at h
  | some q =>
    rw [hq] at h
    simp only [Option.map_some'] at h
    have h2 : q.2 = d := by simpa using h
    exact h2 ▸ List.mem_map.mpr ⟨q, List.mem_of_find?_eq_some hq, rfl⟩

theorem isDeleted_false_of_mem_topLevelQuery {s : Store} {pg : String}
    {d : Comment} (h : d ∈ topLevelQuery s pg) : d.isDeleted = false := by
  rcases List.mem_filter.mp h with ⟨_, hcond⟩
  simp only [Bool.and_eq_true] at hcond
  simpa using hcond.1.2

theorem isDeleted_false_of_mem_getReplies {s : Store} {k : Nat}
    {d : Comment} (h : d ∈ getReplies s k) : d.isDeleted = false := by
  unfold getReplies at h
  rw [mem_sortBy] at h
  rcases List.mem_filter.mp h with ⟨_, hcond⟩
  simp only [Bool.and_eq_true] at hcond
  simpa using hcond.2

theorem mem_getReplies_of {s : Store} {k : Nat} {d : Comment}
    (hd : d ∈ s.map (·.2)) (hpar : d.parentComment = some k)
    (hdel : d.isDeleted = false) : d ∈ getReplies s k := by
  unfold getReplies
  rw [mem_sortBy]
  exact List.mem_filter.mpr ⟨hd, by simp [hpar, hdel]⟩

/-- C5: an edit attempted by a requester other than the author fails with
`AuthorizationError` (the FORBIDDEN error type) and returns the store
untouched, so the comment's `content` and every other field are exactly as
before; in addition, every failure path of the edit operation returns the
store unchanged. -/
theorem C5_edit_nonauthor_forbidden (store : Store) (cid requesterId : Nat)
    (content : String) :
    (∀ c, findById store cid = some c → c.author ≠ requesterId →
      updateComment store cid requesterId content =
        (store, Except.error ErrorType.FORBIDDEN)) ∧
    (∀ e, (updateComment store cid requesterId content).2 = Except.error e →
      (updateComment store cid requesterId content).1 = store) := by
  constructor
  · intro c hf ha
    exact updateComment_forbidden hf ha
  · intro e he
    cases hf : findById store cid with
    | none => rw [updateComment_absent hf]
    | some c =>
      by_cases ha : c.author = requesterId
      · rw [updateComment_auth hf ha] at he ⊢
        by_cases hv : (!validContent content) = true
        · rw [if_pos hv]
        · rw [if_neg hv] at he
          exact Except.noConfusion he
      · rw [updateComment_forbidden hf ha]

/-- Witness for C5: user 3 is not the author of comment 1 (user 2), so the
edit is rejected and the store is returned unchanged. -/
theorem C5_edit_nonauthor_forbidden_witness :
    comment1.author ≠ 3 ∧
    updateComment demoStore 1 3 "new content" =
      (demoStore, Except.error ErrorType.FORBIDDEN) :=
  ⟨by decide,
   (C5_edit_nonauthor_forbidden demoStore 1 3 "new content").1 comment1 rfl
     (by decide)⟩

/-- C6: soft delete by the author succeeds and only flips the target's
`isDeleted` flag: the stored document equals the old one with
`isDeleted := true`, every other id resolves to exactly the same document
as before (so children keep their `parentId` and are not deleted, and the
parent's `replies` back-link still carries the comment), the deleted
document is excluded from `listTopLevel` and `listReplies` results, and
every stored non-deleted reply of the deleted comment is still returned by
`listReplies` on it. -/
theorem C6_soft_delete_frame (store : Store) (cid requesterId : Nat)
    (c : Comment) (hf : findById store cid = some c)
    (ha : c.author = requesterId)
    (hp : c.parentComment ≠ some cid)
    (hbl : ∀ p pc, c.parentComment = some p → findById store p = some pc →
      cid ∈ pc.replies) :
    (deleteComment store cid requesterId).2 = Except.ok () ∧
    findById (deleteComment store cid requesterId).1 cid =
      some { c with isDeleted := true } ∧
    (∀ k, k ≠ cid →
      findById (deleteComment store cid requesterId).1 k = findById store k) ∧
    (∀ pg, { c with isDeleted := true } ∉
      topLevelQuery (deleteComment store cid requesterId).1 pg) ∧
    (∀ k, { c with isDeleted := true } ∉
      getReplies (deleteComment store cid requesterId).1 k) ∧
    (∀ k d, findById (deleteComment store cid requesterId).1 k = some d →
      d.parentComment = some cid → d.isDeleted = false →
      d ∈ getReplies (deleteComment store cid requesterId).1 cid) := by
  have hdel := deleteComment_auth hf ha
  have hp' : ({ c with isDeleted := true } : Comment).parentComment ≠
      some cid := hp
  have hbl' : ∀ p pc,
      ({ c with isDeleted := true } : Comment).parentComment = some p →
      findById store p = some pc → cid ∈ pc.replies := hbl
  refine ⟨?_, ?_, ?_, ?_, ?_, ?_⟩
  · rw [hdel]
  · rw [hdel]
    exact findById_saveComment_self hf hp'
  · intro k hk
    rw [hdel]
    exact findById_saveComment_frame hp' hbl' k hk
  · intro pg hmem
    have hno := isDeleted_false_of_mem_topLevelQuery hmem
    simp at hno
  · intro k hmem
    have hno := isDeleted_false_of_mem_getReplies hmem
    simp at hno
  · intro k d hfd hpar hdeld
    exact mem_getReplies_of (findById_mem_values hfd) hpar hdeld

/-- Witness for C6: the author soft-deletes comment 10 and its reply 11 is
still returned by `listReplies` on 10. -/
theorem C6_soft_delete_frame_witness :
    (deleteComment threadStore 10 2).2 = Except.ok () ∧
    childComment1 ∈ getReplies (deleteComment threadStore 10 2).1 10 := by
  have h := C6_soft_delete_frame threadStore 10 2 parentComment1 rfl rfl
    (by decide) (by intro p pc hh _; exact Option.noConfusion hh)
  refine ⟨h.1, ?_⟩
  have hframe := h.2.2.1 11 (by decide)
  have hfd : findById (deleteComment threadStore 10 2).1 11 =
      some childComment1 := by rw [hframe]; rfl
  exact h.2.2.2.2.2 11 childComment1 hfd (by decide) (by decide)

/-- C7: `getComments` returns `totalCount` equal to the number of matching
non-deleted top-level comments and, for a 1-indexed page, the slice of the
sorted filtered sequence from position `(page-1)*pageSize`, of length
`min pageSize (N - (page-1)*pageSize)`; in particular with the 25-comment
store, page 3 of size 10 has 5 items, page 4 has 0 items, and both report
`totalCount = 25` with no error. -/
theorem C7_pagination (store : Store) (pageId : String) (page limit : Nat)
    (mode : SortMode) (hpage : 1 ≤ page) :
    (getComments store pageId page limit mode).totalItems =
      (topLevelQuery store pageId).length ∧
    (getComments store pageId page limit mode).items.length =
      min limit ((topLevelQuery store pageId).length - (page - 1) * limit) ∧
    (∀ i, i < limit →
      (getComments store pageId page limit mode).items[i]? =
        (sortBy (sortLE mode) (topLevelQuery store pageId))[(page - 1) * limit + i]?) ∧
    (getComments store25 "p" 3 10 SortMode.newest).items.length = 5 ∧
    (getComments store25 "p" 3 10 SortMode.newest).totalItems = 25 ∧
    (getComments store25 "p" 4 10 SortMode.newest).items.length = 0 ∧
    (getComments store25 "p" 4 10 SortMode.newest).totalItems = 25 := by
  refine ⟨rfl, ?_, ?_, by decide, by decide, by decide, by decide⟩
  · show (((sortBy (sortLE mode) (topLevelQuery store pageId)).drop
        ((page - 1) * limit)).take limit).length = _
    rw [List.length_take, List.length_drop, length_sortBy]
  · intro i hi
    show (((sortBy (sortLE mode) (topLevelQuery store pageId)).drop
        ((page - 1) * limit)).take limit)[i]? = _
    rw [List.getElem?_take, if_pos hi, List.getElem?_drop]

/-- Witness for C7 at the concrete 25-comment store. -/
theorem C7_pagination_witness :
    1 ≤ 3 ∧ (getComments store25 "p" 3 10 SortMode.newest).totalItems = 25 :=
  ⟨by decide,
   (C7_pagination store25 "p" 3 10 SortMode.newest (by decide)).2.2.2.2.1⟩

/-! ### Back-link idempotence -/

theorem updateById_updateById (s : Store) (k : Nat) (c c' : Comment) :
    updateById (updateById s k c) k c' = updateById s k c' := by
  induction s with
  | nil => rfl
  | cons q rest ih =>
    by_cases h : q.1 = k
    · simp [updateById_cons, h, ih]
    · simp [updateById_cons, h, ih]

theorem addToSet_idem (l : List Nat) (x : Nat) :
    addToSet (addToSet l x) x = addToSet l x := by
  by_cases h : x ∈ l
  · rw [addToSet_mem h, addToSet_mem h]
  · rw [addToSet_not_mem h]
    exact addToSet_mem (by simp)

theorem addToSet_count_fresh {l : List Nat} {x : Nat} (h : x ∉ l) :
    (addToSet l x).count x = 1 := by
  rw [addToSet_not_mem h, List.count_append]
  rw [List.count_eq_zero.mpr h]
  simp

theorem postSaveHook_idem (s : Store) (k : Nat) (doc : Comment) :
    postSaveHook (postSaveHook s k doc) k doc = postSaveHook s k doc := by
  cases hdoc : doc.parentComment with
  | none => rw [postSaveHook_root hdoc, postSaveHook_root hdoc]
  | some p =>
    cases hfp : findById s p with
    | none => rw [postSaveHook_absent hdoc hfp, postSaveHook_absent hdoc hfp]
    | some pc =>
      rw [postSaveHook_present hdoc hfp]
      have hfp2 : findById
          (updateById s p { pc with replies := addToSet pc.replies k }) p =
          some { pc with replies := addToSet pc.replies k } := by
        rw [findById_updateById_eq, hfp]; rfl
      rw [postSaveHook_present hdoc hfp2]
      show updateById (updateById s p _) p
        { pc with replies := addToSet (addToSet pc.replies k) k } = _
      rw [addToSet_idem, updateById_updateById]

/-- C8: the back-link side effect uses set semantics: running the
post-save hook again for the same saved document changes nothing,
`$addToSet` applied twice equals `$addToSet` applied once, and adding a
fresh child id leaves the `replies` array with exactly one occurrence of
it — so a retried creation cannot produce duplicate back-link entries. -/
theorem C8_backlink_idempotent :
    (∀ (s : Store) (k : Nat) (doc : Comment),
      postSaveHook (postSaveHook s k doc) k doc = postSaveHook s k doc) ∧
    (∀ (l : List Nat) (x : Nat), addToSet (addToSet l x) x = addToSet l x) ∧
    (∀ (l : List Nat) (x : Nat), x ∉ l → (addToSet l x).count x = 1) :=
  ⟨postSaveHook_idem, addToSet_idem, fun _ _ h => addToSet_count_fresh h⟩

/-- Witness for C8: adding fresh id 3 to back-link [1, 2] yields exactly
one occurrence. -/
theorem C8_backlink_idempotent_witness :
    (3 : Nat) ∉ [1, 2] ∧ (addToSet [1, 2] 3).count 3 = 1 :=
  ⟨by decide, C8_backlink_idempotent.2.2 [1, 2] 3 (by decide)⟩

/-! ### Toggle frame lemmas -/

theorem likeToggle_fields (c : Comment) (uid : Nat) :
    (likeToggle c uid).content = c.content ∧
    (likeToggle c uid).author = c.author ∧
    (likeToggle c uid).pageId = c.pageId ∧
    (likeToggle c uid).parentComment = c.parentComment ∧
    (likeToggle c uid).replies = c.replies ∧
    (likeToggle c uid).isDeleted = c.isDeleted ∧
    (likeToggle c uid).createdAt = c.createdAt := by
  unfold likeToggle
  split <;> exact ⟨rfl, rfl, rfl, rfl, rfl, rfl, rfl⟩

theorem dislikeToggle_fields (c : Comment) (uid : Nat) :
    (dislikeToggle c uid).content = c.content ∧
    (dislikeToggle c uid).author = c.author ∧
    (dislikeToggle c uid).pageId = c.pageId ∧
    (dislikeToggle c uid).parentComment = c.parentComment ∧
    (dislikeToggle c uid).replies = c.replies ∧
    (dislikeToggle c uid).isDeleted = c.isDeleted ∧
    (dislikeToggle c uid).createdAt = c.createdAt := by
  unfold dislikeToggle
  split <;> exact ⟨rfl, rfl, rfl, rfl, rfl, rfl, rfl⟩

theorem likeToggle_other_mem (c : Comment) (uid v : Nat) (hv : v ≠ uid) :
    (v ∈ (likeToggle c uid).likes ↔ v ∈ c.likes) ∧
    (v ∈ (likeToggle c uid).dislikes ↔ v ∈ c.dislikes) := by
  by_cases hc : uid ∈ c.likes
  · rw [likeToggle_of_mem hc]
    constructor
    · show v ∈ c.likes.filter (fun i => i != uid) ↔ v ∈ c.likes
      simp [List.mem_filter, hv]
    · exact Iff.rfl
  · rw [likeToggle_of_not_mem hc]
    constructor
    · show v ∈ c.likes ++ [uid] ↔ v ∈ c.likes
      simp [hv]
    · show v ∈ c.dislikes.filter (fun i => i != uid) ↔ v ∈ c.dislikes
      simp [List.mem_filter, hv]

theorem dislikeToggle_other_mem (c : Comment) (uid v : Nat) (hv : v ≠ uid) :
    (v ∈ (dislikeToggle c uid).likes ↔ v ∈ c.likes) ∧
    (v ∈ (dislikeToggle c uid).dislikes ↔ v ∈ c.dislikes) := by
  by_cases hc : uid ∈ c.dislikes
  · rw [dislikeToggle_of_mem hc]
    constructor
    · exact Iff.rfl
    · show v ∈ c.dislikes.filter (fun i => i != uid) ↔ v ∈ c.dislikes
      simp [List.mem_filter, hv]
  · rw [dislikeToggle_of_not_mem hc]
    constructor
    · show v ∈ c.likes.filter (fun i => i != uid) ↔ v ∈ c.likes
      simp [List.mem_filter, hv]
    · show v ∈ c.dislikes ++ [uid] ↔ v ∈ c.dislikes
      simp [hv]

/-- C9: a reaction toggle by user `uid` on a present comment (that is not
its own parent) changes at most `uid`'s own membership in that comment's
reaction sets: every other user's membership in both `likes` and
`dislikes` is unchanged, and `content`, `author`, `pageId`,
`parentComment`, `replies`, `isDeleted` and `createdAt` are unchanged. -/
theorem C9_reaction_frame (store : Store) (cid uid : Nat) (c : Comment)
    (hf : findById store cid = some c)
    (hp : c.parentComment ≠ some cid) :
    (∃ c', findById (likeComment store cid uid).1 cid = some c' ∧
      (∀ v, v ≠ uid →
        ((v ∈ c'.likes ↔ v ∈ c.likes) ∧ (v ∈ c'.dislikes ↔ v ∈ c.dislikes))) ∧
      (c'.content = c.content ∧ c'.author = c.author ∧ c'.pageId = c.pageId ∧
       c'.parentComment = c.parentComment ∧ c'.replies = c.replies ∧
       c'.isDeleted = c.isDeleted ∧ c'.createdAt = c.createdAt)) ∧
    (∃ c', findById (dislikeComment store cid uid).1 cid = some c' ∧
      (∀ v, v ≠ uid →
        ((v ∈ c'.likes ↔ v ∈ c.likes) ∧ (v ∈ c'.dislikes ↔ v ∈ c.dislikes))) ∧
      (c'.content = c.content ∧ c'.author = c.author ∧ c'.pageId = c.pageId ∧
       c'.parentComment = c.parentComment ∧ c'.replies = c.replies ∧
       c'.isDeleted = c.isDeleted ∧ c'.createdAt = c.createdAt)) := by
  have h1 : findById (likeComment store cid uid).1 cid =
      some (likeToggle c uid) := step_like hf hp
  have h1' : findById (dislikeComment store cid uid).1 cid =
      some (dislikeToggle c uid) := step_dislike hf hp
  exact ⟨⟨likeToggle c uid, h1,
      fun v hv => likeToggle_other_mem c uid v hv, likeToggle_fields c uid⟩,
    ⟨dislikeToggle c uid, h1',
      fun v hv => dislikeToggle_other_mem c uid v hv,
      dislikeToggle_fields c uid⟩⟩

/-- Witness for C9: liking comment 1 as user 7 keeps its content. -/
theorem C9_reaction_frame_witness :
    ∃ c', findById (likeComment demoStore 1 7).1 1 = some c' ∧
      c'.content = comment1.content := by
  obtain ⟨c', hfd, _, hfields⟩ :=
    (C9_reaction_frame demoStore 1 7 comment1 rfl (by decide)).1
  exact ⟨c', hfd, hfields.1⟩

/-! ### Creation lemmas -/

theorem findById_append_fresh {s : Store} {k : Nat} {c : Comment}
    (h : findById s k = none) : findById (s ++ [(k, c)]) k = some c := by
  induction s with
  | nil => simp [findById_cons]
  | cons q rest ih =>
    rw [List.cons_append, findById_cons]
    rw [findById_cons] at h
    by_cases hq : q.1 = k
    · rw [if_pos hq] at h; exact absurd h (by simp)
    · rw [if_neg hq] at h
      rw [if_neg hq]
      exact ih h

theorem findById_append_of_some {s : Store} {k : Nat} {c : Comment}
    (h : findById s k = some c) (t : Store) : findById (s ++ t) k = some c := by
  induction s with
  | nil => rw [findById_nil] at h; exact Option.noConfusion h
  | cons q rest ih =>
    rw [List.cons_append, findById_cons]
    rw [findById_cons] at h
    by_cases hq : q.1 = k
    · rw [if_pos hq] at h
      rw [if_pos hq]
      exact h
    · rw [if_neg hq] at h
      rw [if_neg hq]
      exact ih h

theorem mem_addToSet_self (l : List Nat) (x : Nat) : x ∈ addToSet l x := by
  by_cases h : x ∈ l
  · rw [addToSet_mem h]; exact h
  · rw [addToSet_not_mem h]; simp

/-- C10: creating a reply only requires the parent id to resolve — the
supplied `pageId` is never compared with the parent's `pageId`.  For any
present parent, valid content, non-empty `pageId` and fresh id, creation
succeeds, the stored reply carries the supplied `pageId` (however it
relates to the parent's) and `parentComment = parent`, and the parent's
`replies` back-link gains the new id. -/
theorem C10_cross_page_reply (store : Store) (u : Nat)
    (content pageId : String) (pid newId now : Nat) (parentC : Comment)
    (hparent : findById store pid = some parentC)
    (hv : validContent content = true) (hpg : pageId ≠ "")
    (hfresh : findById store newId = none) :
    (createComment store u content pageId (some pid) newId now).2 =
      Except.ok newId ∧
    findById (createComment store u content pageId (some pid) newId now).1
      newId = some (newComment u content pageId (some pid) now) ∧
    (newComment u content pageId (some pid) now).pageId = pageId ∧
    (newComment u content pageId (some pid) now).parentComment = some pid ∧
    (∃ pc',
      findById (createComment store u content pageId (some pid) newId now).1
        pid = some pc' ∧ newId ∈ pc'.replies) := by
  have hpidne : pid ≠ newId := by
    intro hh
    rw [hh, hfresh] at hparent
    exact Option.noConfusion hparent
  have hcond : (validContent content && pageId != "") = true := by
    rw [Bool.and_eq_true]
    exact ⟨hv, by simpa using hpg⟩
  have hceq : createComment store u content pageId (some pid) newId now =
      (if !(validContent content && pageId != "") then
        (store, .error .VALIDATION)
       else
        (postSaveHook
          (store ++ [(newId, newComment u content pageId (some pid) now)])
          newId (newComment u content pageId (some pid) now),
         .ok newId)) := createComment_parent_present hparent
  rw [if_neg (show ¬ (!(validContent content && pageId != "")) = true by
    simp [hcond])] at hceq
  have hs1 : findById
      (store ++ [(newId, newComment u content pageId (some pid) now)]) pid =
      some parentC := findById_append_of_some hparent _
  have hs1new : findById
      (store ++ [(newId, newComment u content pageId (some pid) now)]) newId =
      some (newComment u content pageId (some pid) now) :=
    findById_append_fresh hfresh
  have hdoc : (newComment u content pageId (some pid) now).parentComment =
      some pid := rfl
  have hhook := postSaveHook_present (k := newId) hdoc hs1
  have hstore : (createComment store u content pageId (some pid) newId now).1 =
      postSaveHook
        (store ++ [(newId, newComment u content pageId (some pid) now)]) newId
        (newComment u content pageId (some pid) now) := by rw [hceq]
  refine ⟨?_, ?_, rfl, rfl, ?_⟩
  · rw [hceq]
  · rw [hstore, hhook, findById_updateById_ne _ _ _ _ (Ne.symm hpidne)]
    exact hs1new
  · refine ⟨{ parentC with replies := addToSet parentC.replies newId }, ?_,
      mem_addToSet_self _ _⟩
    rw [hstore, hhook, findById_updateById_eq, hs1]
    rfl

/-- Witness for C10: the parent lives on "page-a", the reply is created on
"page-b" and creation succeeds. -/
theorem C10_cross_page_reply_witness :
    parentComment1.pageId = "page-a" ∧
    ("page-b" : String) ≠ "page-a" ∧
    (newComment 5 "hi there" "page-b" (some 10) 9).pageId = "page-b" ∧
    (createComment threadStore 5 "hi there" "page-b" (some 10) 99 9).2 =
      Except.ok 99 := by
  refine ⟨rfl, by decide, rfl, ?_⟩
  exact (C10_cross_page_reply threadStore 5 "hi there" "page-b" 10 99 9
    parentComment1 rfl (by decide) (by decide) rfl).1

end CommentsHub
